import Mathlib

/-!
Shallow embedding of `annuitystreamlitapp.py` (repository `okv006/annuitetskalk`).

The engine consists of three functions translated below:

* `calculate_monthly_payment` (source lines 18-22),
* `calculate_rental_tax` (source lines 35-78),
* `calculate_amortization_schedule` (source lines 80-262).

Python floats are modelled as exact rationals (`ℚ`).  A float division whose
denominator is zero raises `ZeroDivisionError` in Python; that failure is
modelled by an `Option` result.  Calendar dates are modelled by a record of
year / month / day, which is all the source uses (it compares `.month`,
`.year`, clamps `.day`, and tests dates for equality when looking up extra
payments).
-/

/-- A calendar date as used by the source: it only ever reads the `year`,
`month` and `day` components, compares dates for equality, and builds new
dates with `date(y, m, d)`. -/
structure Date where
  year : ℤ
  month : ℕ
  day : ℕ
deriving DecidableEq

/-- Source lines 137-139: the next payment date.
`date(current_date.year + ((current_date.month) // 12),
      ((current_date.month) % 12) + 1, min(current_date.day, 28))`. -/
def nextDate (d : Date) : Date :=
  ⟨d.year + (d.month / 12 : ℕ), d.month % 12 + 1, min d.day 28⟩

/-- The extra-payment dictionary (`extra_payments` in the source): a finite
map from dates to amounts, modelled as an association list with unique keys. -/
abbrev ExtraPayments : Type := List (Date × ℚ)

/-- Source line 142: `extra_payments.get(current_date, 0)` — dictionary lookup
with default 0. -/
def lookupExtra (m : ExtraPayments) (d : Date) : ℚ :=
  match m.find? (fun e => decide (e.1 = d)) with
  | some e => e.2
  | none => 0

/-- The dictionary returned by `calculate_rental_tax` (source lines 65-78). -/
structure TaxResult where
  taxable_income : ℚ
  income_tax : ℚ
  effective_tax_rate : ℚ
  deductions : ℚ
deriving DecidableEq

/-- `calculate_rental_tax` (source lines 35-78).  The `property_value`
parameter of the Python function is unused in its body and is omitted. -/
def calculate_rental_tax (annual_rental_income rental_percentage interest_paid
    property_tax other_expenses depreciation : ℚ) : TaxResult :=
  if rental_percentage > 50 then
    let deductible_interest := interest_paid * (rental_percentage / 100)
    let deductible_property_tax := property_tax * (rental_percentage / 100)
    let total_deductions :=
      deductible_interest + deductible_property_tax + other_expenses + depreciation
    let taxable_income := max 0 (annual_rental_income - total_deductions)
    let income_tax_rate : ℚ := 22 / 100
    let income_tax := taxable_income * income_tax_rate
    { taxable_income := taxable_income
      income_tax := income_tax
      effective_tax_rate :=
        if annual_rental_income > 0 then income_tax / annual_rental_income * 100 else 0
      deductions := total_deductions }
  else
    { taxable_income := 0, income_tax := 0, effective_tax_rate := 0, deductions := 0 }

/-- `calculate_monthly_payment` (source lines 18-22).  The Python function
takes `years` and raises to the power `num_payments = years * 12`; every call
site in the repository passes a `years` for which `num_payments` is an
integer (either an integral number of years, or `remaining_months / 12`), so
the embedding takes that integer exponent directly.  Python's
`ZeroDivisionError` on the zero denominator `(1+monthly_rate)^n - 1 = 0` is
modelled as `none`. -/
def calculate_monthly_payment (principal annual_rate : ℚ) (num_payments : ℤ) : Option ℚ :=
  let monthly_rate := annual_rate / 12 / 100
  let growth := (1 + monthly_rate) ^ num_payments
  if growth - 1 = 0 then none
  else some (principal * (monthly_rate * growth) / (growth - 1))

/-- One row of the schedule DataFrame (source lines 236-254), with the exact
column set appended there. -/
structure PeriodRecord where
  Payment_Date : Date
  Payment_Num : ℤ
  Payment : ℚ
  Principal : ℚ
  Regular_Principal : ℚ
  Interest : ℚ
  Extra_Payment : ℚ
  Monthly_Extra_Income : ℚ
  Excess_Reinvested : ℚ
  Remaining_Balance : ℚ
  Monthly_Fee : ℚ
  Rental_Income : ℚ
  Monthly_Cost : ℚ
  Monthly_Tax : ℚ
  Monthly_Cost_After_Tax : ℚ
  After_Tax_Rental_Profit : ℚ
  Years : ℚ
deriving DecidableEq

/-- A default record, used only to give `List.getD` a value to return at
out-of-range indices in concrete statements. -/
def emptyRecord : PeriodRecord :=
  ⟨⟨0, 0, 0⟩, 0, 0, 0, 0, 0, 0, 0, 0, 0, 0, 0, 0, 0, 0, 0, 0⟩

/-- The parameters of `calculate_amortization_schedule` (source lines 80-83),
bundled into one structure; the field names are the Python parameter names. -/
structure Params where
  principal : ℚ
  annual_rate : ℚ
  years : ℤ
  monthly_fee : ℚ
  start_date : Date
  rental_income : ℚ
  monthly_extra_income : ℚ
  extra_payments : ExtraPayments
  reduce_term : Bool
  reinvest_excess : Bool
  rental_percentage : ℚ
  property_tax : ℚ
  other_expenses : ℚ
  property_value : ℚ
  depreciation_percentage : ℚ

/-- The loop state threaded across iterations of the `for` loop (source
lines 92-95 and 111-114).  The variables `total_extra_payments`,
`reinvested_total`, `current_year` and `yearly_tax_liability` are also
assigned in the source but are never read in a way that affects the returned
DataFrame, so they are not carried here. -/
structure LoopState where
  remaining_balance : ℚ
  current_date : Date
  excess_for_next_month : ℚ
  yearly_rental_income : ℚ
  yearly_interest_paid : ℚ
deriving DecidableEq

/-- Source lines 118-127: the per-period payment.  In payment-reduction mode
(`reduce_term = false`) the payment is recomputed from the remaining balance
and the remaining term (the source calls
`calculate_monthly_payment(remaining_balance, annual_rate, remaining_months/12)`,
whose exponent is `remaining_months`); otherwise the initial payment is
reused.  `none` models the `ZeroDivisionError` the recomputation can raise. -/
def periodPayment (reduce_term : Bool) (initial_monthly_payment annual_rate
    remaining_balance : ℚ) (remaining_months : ℤ) : Option ℚ :=
  if reduce_term then some initial_monthly_payment
  else if remaining_months > 0 ∧ remaining_balance > 0 then
    calculate_monthly_payment remaining_balance annual_rate remaining_months
  else some 0

/-- The body of one loop iteration (source lines 130-254), given the period's
already-resolved `monthly_payment`: it returns the emitted `PeriodRecord`
together with the state seen by the next iteration (balance update line 234,
date advance line 260, reinvestment carry lines 145-151 and 223-231, yearly
accumulator update lines 157-158 and reset lines 190-192). -/
def scheduleStep (p : Params) (annual_depreciation : ℚ) (payment_num : ℤ)
    (monthly_payment : ℚ) (s : LoopState) : PeriodRecord × LoopState :=
  let monthly_rate := p.annual_rate / 12 / 100
  let interest_payment := s.remaining_balance * monthly_rate
  let regular_principal_payment := monthly_payment - interest_payment
  let next_date := nextDate s.current_date
  let base_extra := lookupExtra p.extra_payments s.current_date
  -- lines 144-151: apply the carried-over surplus from the previous month
  let applyCarry : Bool := p.reinvest_excess && decide (s.excess_for_next_month > 0)
  let reinvested_this_month := if applyCarry then s.excess_for_next_month else 0
  let extra_payment := base_extra + reinvested_this_month
  let carry_after_apply := if applyCarry then 0 else s.excess_for_next_month
  -- line 154
  let principal_payment := regular_principal_payment + extra_payment + p.monthly_extra_income
  -- lines 157-158
  let yearly_rental_income := s.yearly_rental_income + p.rental_income
  let yearly_interest_paid := s.yearly_interest_paid + interest_payment
  -- line 161
  let monthly_cost :=
    max 0 (monthly_payment + p.monthly_fee - p.rental_income - p.monthly_extra_income)
  -- line 164: year boundary or payoff check (pre-floor balance)
  let atBoundary : Bool :=
    decide (s.current_date.month = 12) || decide (s.remaining_balance - principal_payment ≤ 0)
  -- lines 164-215: (monthly_tax, yearly rental accumulator out, yearly interest accumulator out)
  let taxStep : ℚ × ℚ × ℚ :=
    if atBoundary then
      if p.rental_percentage > 50 then
        let monthly_depreciation := annual_depreciation / 12
        let months_in_year : ℚ :=
          if s.current_date.year > p.start_date.year then (s.current_date.month : ℚ)
          else 13 - (p.start_date.month : ℚ)
        let yearly_depreciation := monthly_depreciation * months_in_year
        let yearly_property_tax_portion := p.property_tax * months_in_year / 12
        let yearly_other_expenses_portion := p.other_expenses * months_in_year / 12
        let tax_result := calculate_rental_tax yearly_rental_income p.rental_percentage
          yearly_interest_paid yearly_property_tax_portion yearly_other_expenses_portion
          yearly_depreciation
        let yearly_tax_liability := tax_result.income_tax
        (yearly_tax_liability / months_in_year, 0, 0)
      else (0, 0, 0)
    else
      if p.rental_percentage > 50 then
        let monthly_rental := p.rental_income
        let monthly_interest := interest_payment
        let monthly_depreciation := annual_depreciation / 12
        let monthly_property_tax := p.property_tax / 12
        let monthly_other_expenses := p.other_expenses / 12
        let monthly_tax_estimate := (calculate_rental_tax (monthly_rental * 12)
          p.rental_percentage (monthly_interest * 12) (monthly_property_tax * 12)
          (monthly_other_expenses * 12) (monthly_depreciation * 12)).income_tax / 12
        (monthly_tax_estimate, yearly_rental_income, yearly_interest_paid)
      else (0, yearly_rental_income, yearly_interest_paid)
  let monthly_tax := taxStep.1
  -- line 218
  let monthly_cost_after_tax := monthly_cost + monthly_tax
  -- line 221
  let after_tax_rental_profit :=
    max 0 (p.rental_income - interest_payment * (p.rental_percentage / 100)) - monthly_tax
  -- lines 223-231: compute the surplus carried into the next month
  let computeExcess : Bool := p.reinvest_excess && decide (p.rental_income > interest_payment)
  let potential_excess := p.rental_income - interest_payment
  let excess_next :=
    if computeExcess then max 0 (potential_excess - regular_principal_payment)
    else carry_after_apply
  let excess_reinvested :=
    if computeExcess then max 0 (potential_excess - regular_principal_payment) else 0
  -- line 234
  let remaining_balance := max 0 (s.remaining_balance - principal_payment)
  ({ Payment_Date := s.current_date
     Payment_Num := payment_num
     Payment := monthly_payment
     Principal := principal_payment
     Regular_Principal := regular_principal_payment
     Interest := interest_payment
     Extra_Payment := extra_payment
     Monthly_Extra_Income := p.monthly_extra_income
     Excess_Reinvested := excess_reinvested
     Remaining_Balance := remaining_balance
     Monthly_Fee := p.monthly_fee
     Rental_Income := p.rental_income
     Monthly_Cost := monthly_cost
     Monthly_Tax := monthly_tax
     Monthly_Cost_After_Tax := monthly_cost_after_tax
     After_Tax_Rental_Profit := after_tax_rental_profit
     Years := (payment_num : ℚ) / 12 },
   { remaining_balance := remaining_balance
     current_date := next_date
     excess_for_next_month := excess_next
     yearly_rental_income := taxStep.2.1
     yearly_interest_paid := taxStep.2.2 })

/-- The `for payment_num in range(1, num_payments + 1)` loop (source lines
117-260), by recursion on the number of remaining iterations (`fuel`, with
`payment_num + fuel = num_payments + 1` at the top-level call).  After
emitting a record the loop breaks as soon as the floored balance is `≤ 0`
(source lines 256-257). -/
def scheduleAux (p : Params) (initial_monthly_payment annual_depreciation : ℚ)
    (num_payments : ℤ) : ℕ → ℤ → LoopState → Option (List PeriodRecord)
  | 0, _, _ => some []
  | fuel + 1, payment_num, s =>
    let remaining_months := num_payments - payment_num + 1
    match periodPayment p.reduce_term initial_monthly_payment p.annual_rate
        s.remaining_balance remaining_months with
    | none => none
    | some monthly_payment =>
      let step := scheduleStep p annual_depreciation payment_num monthly_payment s
      if step.1.Remaining_Balance ≤ 0 then some [step.1]
      else (scheduleAux p initial_monthly_payment annual_depreciation num_payments
        fuel (payment_num + 1) step.2).map (fun rest => step.1 :: rest)

/-- The initial loop state (source lines 92-95, 111-114). -/
def initialState (p : Params) : LoopState :=
  { remaining_balance := p.principal
    current_date := p.start_date
    excess_for_next_month := 0
    yearly_rental_income := 0
    yearly_interest_paid := 0 }

/-- Source lines 98-104: the annual depreciation figure. -/
def annualDepreciation (p : Params) : ℚ :=
  if p.rental_percentage > 50 ∧ p.property_value > 0 ∧ p.depreciation_percentage > 0 then
    (p.property_value * (7 / 10)) * (p.depreciation_percentage / 100)
  else 0

/-- `calculate_amortization_schedule` (source lines 80-262).  `none` models a
run that raises (the unguarded initial-payment computation on line 89 can
divide by zero).  The returned list is the DataFrame built on line 262. -/
def calculate_amortization_schedule (p : Params) : Option (List PeriodRecord) :=
  let num_payments := p.years * 12
  match calculate_monthly_payment p.principal p.annual_rate num_payments with
  | none => none
  | some initial_monthly_payment =>
    scheduleAux p initial_monthly_payment (annualDepreciation p) num_payments
      num_payments.toNat 1 (initialState p)

/-! ### Auxiliary definitions used by the verification -/

/-- Boolean check that a list of records has non-increasing, non-negative
`Remaining_Balance` values, starting from a given upper bound. -/
def balancesOk : ℚ → List PeriodRecord → Bool
  | _, [] => true
  | b, pr :: rest =>
    decide (0 ≤ pr.Remaining_Balance) && decide (pr.Remaining_Balance ≤ b) &&
      balancesOk pr.Remaining_Balance rest

/-- The fields of a `PeriodRecord` that do not depend on the monthly fee. -/
structure FeeInvariantFields where
  Payment_Date : Date
  Payment_Num : ℤ
  Payment : ℚ
  Principal : ℚ
  Regular_Principal : ℚ
  Interest : ℚ
  Extra_Payment : ℚ
  Monthly_Extra_Income : ℚ
  Excess_Reinvested : ℚ
  Remaining_Balance : ℚ
  Rental_Income : ℚ
  Monthly_Tax : ℚ
  After_Tax_Rental_Profit : ℚ
  Years : ℚ
deriving DecidableEq

/-- Projection dropping exactly the fee-dependent columns `Monthly_Fee`,
`Monthly_Cost` and `Monthly_Cost_After_Tax`. -/
def stripFee (pr : PeriodRecord) : FeeInvariantFields :=
  ⟨pr.Payment_Date, pr.Payment_Num, pr.Payment, pr.Principal, pr.Regular_Principal,
   pr.Interest, pr.Extra_Payment, pr.Monthly_Extra_Income, pr.Excess_Reinvested,
   pr.Remaining_Balance, pr.Rental_Income, pr.Monthly_Tax, pr.After_Tax_Rental_Profit,
   pr.Years⟩

/-- The relation between consecutive schedule records under reinvestment:
the later record's extra payment is its date's one-time lump sum plus the
earlier record's recorded surplus. -/
def reinvestChain (p : Params) (a b : PeriodRecord) : Prop :=
  b.Extra_Payment = lookupExtra p.extra_payments b.Payment_Date + a.Excess_Reinvested

/-- A small loan (1200 at 5% over one year) with every optional feature off. -/
def smallParams : Params :=
  { principal := 1200, annual_rate := 5, years := 1, monthly_fee := 0,
    start_date := ⟨2025, 1, 15⟩, rental_income := 0, monthly_extra_income := 0,
    extra_payments := [], reduce_term := true, reinvest_excess := false,
    rental_percentage := 0, property_tax := 0, other_expenses := 0,
    property_value := 0, depreciation_percentage := 0 }

/-- A one-year tax-active run: 120000 at 12% (monthly rate 1%), rental income
2000 per month, 100% of the property rented out, no other deductibles.  All
twelve payment dates fall in calendar year 2025 and the twelfth payment is
both the December year boundary and the payoff. -/
def c1Params : Params :=
  { principal := 120000, annual_rate := 12, years := 1, monthly_fee := 0,
    start_date := ⟨2025, 1, 15⟩, rental_income := 2000, monthly_extra_income := 0,
    extra_payments := [], reduce_term := true, reinvest_excess := false,
    rental_percentage := 100, property_tax := 0, other_expenses := 0,
    property_value := 0, depreciation_percentage := 0 }

/-- The schedule of `c1Params`. -/
def c1Schedule : List PeriodRecord := (calculate_amortization_schedule c1Params).getD []

/-- A loop state sitting on a December payment, used to exercise the year
boundary of the tax branch. -/
def decemberState : LoopState :=
  { remaining_balance := 50000, current_date := ⟨2025, 12, 15⟩,
    excess_for_next_month := 0, yearly_rental_income := 11000,
    yearly_interest_paid := 4000 }

/-- Tax-active parameters whose start month is March, for the year-boundary
witness. -/
def marchStartParams : Params :=
  { principal := 100000, annual_rate := 6, years := 5, monthly_fee := 45,
    start_date := ⟨2025, 3, 1⟩, rental_income := 1100, monthly_extra_income := 0,
    extra_payments := [], reduce_term := true, reinvest_excess := false,
    rental_percentage := 60, property_tax := 1200, other_expenses := 600,
    property_value := 0, depreciation_percentage := 0 }

/-- `smallParams` with a negative principal — an invalid input. -/
def c3aParams : Params := { smallParams with principal := -1000 }

/-- `smallParams` with a negative term — an invalid input. -/
def c3bParams : Params := { smallParams with principal := 1000000, years := -1 }

/-- The spec's example loan (1,000,000 at 5% over 10 years) in
payment-reduction mode with a single 100,000 extra payment dated on the
first period's date. -/
def c8Params : Params :=
  { principal := 1000000, annual_rate := 5, years := 10, monthly_fee := 0,
    start_date := ⟨2025, 1, 15⟩, rental_income := 0, monthly_extra_income := 0,
    extra_payments := [(⟨2025, 1, 15⟩, 100000)], reduce_term := false,
    reinvest_excess := false, rental_percentage := 0, property_tax := 0,
    other_expenses := 0, property_value := 0, depreciation_percentage := 0 }

/-- The schedule of `c8Params`. -/
def c8Schedule : List PeriodRecord := (calculate_amortization_schedule c8Params).getD []

/-- A reinvestment run that pays off early: rental income 1000 far exceeds
interest on a 1200 principal, so each month's surplus is carried into the
next month and the loan pays off at the third payment, whose own computed
surplus is still recorded. -/
def reinvestParams : Params := { smallParams with rental_income := 1000, reinvest_excess := true }

/-- The schedule of `reinvestParams`. -/
def reinvestSchedule : List PeriodRecord :=
  (calculate_amortization_schedule reinvestParams).getD []

/-! ### Helper lemmas -/


/-! ### Helper lemmas about `scheduleStep` -/

theorem scheduleStep_Payment (p : Params) (a mp : ℚ) (k : ℤ) (s : LoopState) :
    (scheduleStep p a k mp s).1.Payment = mp := rfl

theorem scheduleStep_date (p : Params) (a mp : ℚ) (k : ℤ) (s : LoopState) :
    (scheduleStep p a k mp s).1.Payment_Date = s.current_date := rfl

theorem scheduleStep_Interest (p : Params) (a mp : ℚ) (k : ℤ) (s : LoopState) :
    (scheduleStep p a k mp s).1.Interest =
      s.remaining_balance * (p.annual_rate / 12 / 100) := rfl

theorem scheduleStep_Principal (p : Params) (a mp : ℚ) (k : ℤ) (s : LoopState) :
    (scheduleStep p a k mp s).1.Principal =
      (scheduleStep p a k mp s).1.Regular_Principal +
        (scheduleStep p a k mp s).1.Extra_Payment + p.monthly_extra_income := rfl

theorem scheduleStep_Monthly_Tax_zero (p : Params) (a mp : ℚ) (k : ℤ) (s : LoopState)
    (h : ¬ 50 < p.rental_percentage) :
    (scheduleStep p a k mp s).1.Monthly_Tax = 0 := by
  simp only [scheduleStep]
  split <;> simp [h] <;> split <;> simp

theorem scheduleStep_Extra_Payment (p : Params) (a mp : ℚ) (k : ℤ) (s : LoopState)
    (hre : p.reinvest_excess = true) (hnn : 0 ≤ s.excess_for_next_month) :
    (scheduleStep p a k mp s).1.Extra_Payment =
      lookupExtra p.extra_payments s.current_date + s.excess_for_next_month := by
  show lookupExtra p.extra_payments s.current_date +
      (if p.reinvest_excess && decide (s.excess_for_next_month > 0)
        then s.excess_for_next_month else 0) = _
  rcases lt_or_eq_of_le hnn with h | h
  · rw [if_pos]; simp [hre, h]
  · rw [← h]; simp

theorem scheduleStep_Excess_Reinvested (p : Params) (a mp : ℚ) (k : ℤ) (s : LoopState)
    (hre : p.reinvest_excess = true) :
    (scheduleStep p a k mp s).1.Excess_Reinvested =
      if p.rental_income > (scheduleStep p a k mp s).1.Interest then
        max 0 ((p.rental_income - (scheduleStep p a k mp s).1.Interest) -
          (scheduleStep p a k mp s).1.Regular_Principal)
      else 0 := by
  show (if p.reinvest_excess && decide (p.rental_income > _) then _ else 0) = _
  simp only [hre, Bool.true_and]
  split
  · rw [if_pos]; · rfl
    · next hh => exact of_decide_eq_true hh
  · rw [if_neg]
    next hh => exact fun hc => hh (by simpa using hc)

theorem scheduleStep_Excess_nonneg (p : Params) (a mp : ℚ) (k : ℤ) (s : LoopState) :
    0 ≤ (scheduleStep p a k mp s).1.Excess_Reinvested := by
  show (0:ℚ) ≤ (if _ then max 0 _ else 0)
  split
  · exact le_max_left 0 _
  · exact le_refl 0

theorem scheduleStep_carry (p : Params) (a mp : ℚ) (k : ℤ) (s : LoopState)
    (hre : p.reinvest_excess = true) (hnn : 0 ≤ s.excess_for_next_month) :
    (scheduleStep p a k mp s).2.excess_for_next_month =
      (scheduleStep p a k mp s).1.Excess_Reinvested := by
  show (if p.reinvest_excess && decide (p.rental_income > _) then _
      else if p.reinvest_excess && decide (s.excess_for_next_month > 0)
        then 0 else s.excess_for_next_month) = _
  show _ = (if p.reinvest_excess && decide (p.rental_income > _) then _ else 0)
  split
  · rfl
  · simp only [hre, Bool.true_and]
    rcases lt_or_eq_of_le hnn with h | h
    · rw [if_pos (by simpa using h)]
    · rw [← h]; simp

/-! ### Helper lemmas about the schedule loop -/

theorem schedule_eq_some (p : Params) (l : List PeriodRecord)
    (hl : calculate_amortization_schedule p = some l) :
    ∃ init, calculate_monthly_payment p.principal p.annual_rate (p.years * 12) = some init ∧
      scheduleAux p init (annualDepreciation p) (p.years * 12) (p.years * 12).toNat 1
        (initialState p) = some l := by
  unfold calculate_amortization_schedule at hl
  cases hmp : calculate_monthly_payment p.principal p.annual_rate (p.years * 12) with
  | none => simp only [hmp] at hl; exact Option.noConfusion hl
  | some init =>
    simp only [hmp] at hl
    exact ⟨init, rfl, hl⟩

theorem getD_of_lt {α : Type} (l : List α) (d : α) (i : ℕ) (h : i < l.length) :
    l.getD i d = l.get ⟨i, h⟩ := by
  simp [List.getD_eq_getElem?_getD, List.getElem?_eq_getElem h]

theorem scheduleAux_monthly_tax_zero (p : Params) (h : ¬ 50 < p.rental_percentage)
    (init dep : ℚ) (N : ℤ) :
    ∀ (fuel : ℕ) (k : ℤ) (s : LoopState) (l : List PeriodRecord),
      scheduleAux p init dep N fuel k s = some l → ∀ pr ∈ l, pr.Monthly_Tax = 0 := by
  intro fuel
  induction fuel with
  | zero =>
    intro k s l hl pr hpr
    simp only [scheduleAux, Option.some.injEq] at hl
    subst hl
    simp at hpr
  | succ n ih =>
    intro k s l hl pr hpr
    rw [scheduleAux] at hl
    cases hpp : periodPayment p.reduce_term init p.annual_rate s.remaining_balance
        (N - k + 1) with
    | none => rw [hpp] at hl; exact absurd hl (by simp)
    | some mp =>
      rw [hpp] at hl
      simp only at hl
      split at hl
      · rw [Option.some.injEq] at hl
        subst hl
        rcases List.mem_singleton.mp hpr with rfl
        exact scheduleStep_Monthly_Tax_zero p dep mp k s h
      · rcases Option.map_eq_some'.mp hl with ⟨rest, hrest, rfl⟩
        rcases List.mem_cons.mp hpr with rfl | hmem
        · exact scheduleStep_Monthly_Tax_zero p dep mp k s h
        · exact ih (k + 1) _ rest hrest pr hmem

theorem scheduleAux_reinvest (p : Params) (hre : p.reinvest_excess = true)
    (init dep : ℚ) (N : ℤ) :
    ∀ (fuel : ℕ) (k : ℤ) (s : LoopState) (l : List PeriodRecord),
      0 ≤ s.excess_for_next_month →
      scheduleAux p init dep N fuel k s = some l →
      (∀ hd ∈ l.head?, hd.Extra_Payment =
          lookupExtra p.extra_payments hd.Payment_Date + s.excess_for_next_month) ∧
      l.Chain' (reinvestChain p) ∧
      (∀ pr ∈ l, pr.Excess_Reinvested =
          if p.rental_income > pr.Interest then
            max 0 ((p.rental_income - pr.Interest) - pr.Regular_Principal) else 0) ∧
      (∀ pr ∈ l, pr.Principal =
          pr.Regular_Principal + pr.Extra_Payment + p.monthly_extra_income) := by
  intro fuel
  induction fuel with
  | zero =>
    intro k s l hnn hl
    simp only [scheduleAux, Option.some.injEq] at hl
    subst hl
    refine ⟨by simp, List.chain'_nil, by simp, by simp⟩
  | succ n ih =>
    intro k s l hnn hl
    rw [scheduleAux] at hl
    cases hpp : periodPayment p.reduce_term init p.annual_rate s.remaining_balance
        (N - k + 1) with
    | none => rw [hpp] at hl; exact absurd hl (by simp)
    | some mp =>
      rw [hpp] at hl
      simp only at hl
      have hhead : ∀ hd ∈ ((scheduleStep p dep k mp s).1 :: ([] : List PeriodRecord)).head?,
          hd.Extra_Payment = lookupExtra p.extra_payments hd.Payment_Date +
            s.excess_for_next_month := by
        intro hd hhd
        simp only [List.head?_cons, Option.mem_def, Option.some.injEq] at hhd
        subst hhd
        rw [scheduleStep_date, scheduleStep_Extra_Payment p dep mp k s hre hnn]
      split at hl
      · rw [Option.some.injEq] at hl
        subst hl
        refine ⟨hhead, List.chain'_singleton _, ?_, ?_⟩
        · intro pr hpr
          rcases List.mem_singleton.mp hpr with rfl
          exact scheduleStep_Excess_Reinvested p dep mp k s hre
        · intro pr hpr
          rcases List.mem_singleton.mp hpr with rfl
          exact scheduleStep_Principal p dep mp k s
      · rcases Option.map_eq_some'.mp hl with ⟨rest, hrest, rfl⟩
        have hnn' : 0 ≤ (scheduleStep p dep k mp s).2.excess_for_next_month := by
          rw [scheduleStep_carry p dep mp k s hre hnn]
          exact scheduleStep_Excess_nonneg p dep mp k s
        rcases ih (k + 1) _ rest hnn' hrest with ⟨ihA, ihB, ihC, ihD⟩
        refine ⟨?_, ?_, ?_, ?_⟩
        · intro hd hhd
          simp only [List.head?_cons, Option.mem_def, Option.some.injEq] at hhd
          subst hhd
          rw [scheduleStep_date, scheduleStep_Extra_Payment p dep mp k s hre hnn]
        · rw [List.chain'_cons']
          refine ⟨?_, ihB⟩
          intro y hy
          have := ihA y hy
          rw [scheduleStep_carry p dep mp k s hre hnn] at this
          exact this
        · intro pr hpr
          rcases List.mem_cons.mp hpr with rfl | hmem
          · exact scheduleStep_Excess_Reinvested p dep mp k s hre
          · exact ihC pr hmem
        · intro pr hpr
          rcases List.mem_cons.mp hpr with rfl | hmem
          · exact scheduleStep_Principal p dep mp k s
          · exact ihD pr hmem

theorem sum_extra_of_chain (p : Params) :
    ∀ (l : List PeriodRecord) (e : ℚ),
      (∀ hd ∈ l.head?, hd.Extra_Payment =
          lookupExtra p.extra_payments hd.Payment_Date + e) →
      l.Chain' (reinvestChain p) →
      (l.map fun pr => pr.Extra_Payment).sum =
        (l.map fun pr => lookupExtra p.extra_payments pr.Payment_Date).sum +
          (if l.isEmpty then 0
            else e + ((l.dropLast).map fun pr => pr.Excess_Reinvested).sum) := by
  intro l
  induction l with
  | nil => intro e _ _; simp
  | cons a rest ih =>
    intro e hhead hchain
    have ha : a.Extra_Payment = lookupExtra p.extra_payments a.Payment_Date + e :=
      hhead a (by simp)
    rw [List.chain'_cons'] at hchain
    obtain ⟨hR, hchain'⟩ := hchain
    have hnext : ∀ hd ∈ rest.head?, hd.Extra_Payment =
        lookupExtra p.extra_payments hd.Payment_Date + a.Excess_Reinvested :=
      fun hd hhd => hR hd hhd
    have := ih a.Excess_Reinvested hnext hchain'
    cases rest with
    | nil => simp [ha]
    | cons b t =>
      rw [List.dropLast_cons₂]
      simp only [List.map_cons, List.sum_cons, List.isEmpty_cons] at this ⊢
      rw [ha, this]
      simp only [if_neg (by simp : ¬ (false = true))]
      ring

/-! ### C6 and C10 -/

/-- C6: with `reinvest_excess` on, each record's recorded surplus equals
`max 0 ((rental_income − interest) − regular_principal)` when rental income
exceeds that period's interest (and 0 otherwise); it is added to the next
record's extra payment on top of that date's one-time lump sum — exactly one
period later — and the applied carry is exactly the previous record's surplus
(so it is never also counted in the earlier period, whose total principal is
regular principal + its own extra payment + fixed extra income). -/
theorem reinvestment_carry_next_period (p : Params) (l : List PeriodRecord)
    (hre : p.reinvest_excess = true)
    (hl : calculate_amortization_schedule p = some l)
    (i : ℕ) (h : i + 1 < l.length) :
    (l.get ⟨i + 1, h⟩).Extra_Payment =
      lookupExtra p.extra_payments (l.get ⟨i + 1, h⟩).Payment_Date +
        (l.get ⟨i, Nat.lt_of_succ_lt h⟩).Excess_Reinvested ∧
    (l.get ⟨i, Nat.lt_of_succ_lt h⟩).Excess_Reinvested =
      (if p.rental_income > (l.get ⟨i, Nat.lt_of_succ_lt h⟩).Interest then
        max 0 ((p.rental_income - (l.get ⟨i, Nat.lt_of_succ_lt h⟩).Interest) -
          (l.get ⟨i, Nat.lt_of_succ_lt h⟩).Regular_Principal) else 0) ∧
    (l.get ⟨i, Nat.lt_of_succ_lt h⟩).Principal =
      (l.get ⟨i, Nat.lt_of_succ_lt h⟩).Regular_Principal +
        (l.get ⟨i, Nat.lt_of_succ_lt h⟩).Extra_Payment + p.monthly_extra_income := by
  obtain ⟨init, hmp, haux⟩ := schedule_eq_some p l hl
  obtain ⟨hA, hB, hC, hD⟩ := scheduleAux_reinvest p hre init (annualDepreciation p)
    (p.years * 12) (p.years * 12).toNat 1 (initialState p) l (le_refl 0) haux
  refine ⟨?_, hC _ (List.get_mem l i _), hD _ (List.get_mem l i _)⟩
  have := (List.chain'_iff_get.mp hB) i (by omega)
  exact this

unseal Rat.add Rat.mul Rat.inv Rat.sub Rat.ofScientific in
/-- C6 witness: the carry relation between records 1 and 2 of the
reinvestment run `reinvestParams`. -/
theorem reinvestment_carry_next_period_witness :
    reinvestParams.reinvest_excess = true ∧
    calculate_amortization_schedule reinvestParams = some reinvestSchedule ∧
    0 + 1 < reinvestSchedule.length ∧
    (reinvestSchedule.getD 1 emptyRecord).Extra_Payment =
      lookupExtra reinvestParams.extra_payments
        (reinvestSchedule.getD 1 emptyRecord).Payment_Date +
        (reinvestSchedule.getD 0 emptyRecord).Excess_Reinvested := by
  have hre : reinvestParams.reinvest_excess = true := rfl
  have hl : calculate_amortization_schedule reinvestParams = some reinvestSchedule := by
    decide
  have hlen : 0 + 1 < reinvestSchedule.length := by decide
  refine ⟨hre, hl, hlen, ?_⟩
  have hmain :=
    (reinvestment_carry_next_period reinvestParams reinvestSchedule hre hl 0 hlen).1
  rw [getD_of_lt _ _ 1 hlen, getD_of_lt _ _ 0 (Nat.lt_of_succ_lt hlen)]
  exact hmain

/-- C10: with `reinvest_excess` on, the surplus each record stores in
`Excess_Reinvested` is applied to the following record's extra payment, so
the total of all extra payments equals the total of the one-time lump sums
looked up at the record dates plus the recorded surpluses of every record
except the last: the final record (in a payoff run, the one whose balance
reached 0) still records its computed surplus, but the loop terminates before
it can be applied, and it is silently discarded. -/
theorem final_period_surplus_discarded (p : Params) (l : List PeriodRecord)
    (hre : p.reinvest_excess = true)
    (hl : calculate_amortization_schedule p = some l) :
    (l.map fun pr => pr.Extra_Payment).sum =
      (l.map fun pr => lookupExtra p.extra_payments pr.Payment_Date).sum +
        ((l.dropLast).map fun pr => pr.Excess_Reinvested).sum ∧
    ∀ lr ∈ l.getLast?, lr.Excess_Reinvested =
      if p.rental_income > lr.Interest then
        max 0 ((p.rental_income - lr.Interest) - lr.Regular_Principal) else 0 := by
  obtain ⟨init, hmp, haux⟩ := schedule_eq_some p l hl
  obtain ⟨hA, hB, hC, _⟩ := scheduleAux_reinvest p hre init (annualDepreciation p)
    (p.years * 12) (p.years * 12).toNat 1 (initialState p) l (le_refl 0) haux
  have hsum := sum_extra_of_chain p l 0 hA hB
  constructor
  · rcases l with _ | ⟨a, rest⟩
    · simp
    · simpa using hsum
  · intro lr hlr
    exact hC lr (List.mem_of_getLast?_eq_some hlr)

unseal Rat.add Rat.mul Rat.inv Rat.sub Rat.ofScientific in
/-- C10 witness: the surplus accounting for `reinvestParams`, a run that
pays off at its third record while that record's `Excess_Reinvested` is
positive. -/
theorem final_period_surplus_discarded_witness :
    reinvestParams.reinvest_excess = true ∧
    calculate_amortization_schedule reinvestParams = some reinvestSchedule ∧
    (((reinvestSchedule.map fun pr => pr.Extra_Payment).sum =
      (reinvestSchedule.map fun pr =>
        lookupExtra reinvestParams.extra_payments pr.Payment_Date).sum +
        ((reinvestSchedule.dropLast).map fun pr => pr.Excess_Reinvested).sum) ∧
    ∀ lr ∈ reinvestSchedule.getLast?, lr.Excess_Reinvested =
      if reinvestParams.rental_income > lr.Interest then
        max 0 ((reinvestParams.rental_income - lr.Interest) - lr.Regular_Principal)
      else 0) :=
  ⟨rfl, by decide,
    final_period_surplus_discarded reinvestParams reinvestSchedule rfl (by decide)⟩

/-! ### C4: balance monotonicity -/

theorem payment_formula_some_ge (P r : ℚ) (n : ℤ) (hP : 0 ≤ P) (hr : 0 < r) (hn : 1 ≤ n) :
    ∃ A, calculate_monthly_payment P r n = some A ∧ P * (r / 12 / 100) ≤ A := by
  have hrho : (0:ℚ) < r / 12 / 100 := by positivity
  have hq : (1:ℚ) < 1 + r / 12 / 100 := by linarith
  have hQ : (1:ℚ) < (1 + r / 12 / 100) ^ n := one_lt_zpow₀ hq (by omega)
  have hden : (0:ℚ) < (1 + r / 12 / 100) ^ n - 1 := by linarith
  refine ⟨P * (r / 12 / 100 * (1 + r / 12 / 100) ^ n) / ((1 + r / 12 / 100) ^ n - 1),
    ?_, ?_⟩
  · unfold calculate_monthly_payment
    rw [if_neg (by linarith)]
  · rw [le_div_iff₀ hden]
    have hPrho : 0 ≤ P * (r / 12 / 100) := by positivity
    nlinarith

theorem periodPayment_some_ge (rt : Bool) (init r b cap : ℚ) (m : ℤ)
    (hr : 0 < r) (hb : 0 < b) (hbc : b ≤ cap) (hm : 1 ≤ m)
    (hinit : cap * (r / 12 / 100) ≤ init) :
    ∃ A, periodPayment rt init r b m = some A ∧ b * (r / 12 / 100) ≤ A := by
  cases rt with
  | false =>
    obtain ⟨A, hA, hge⟩ := payment_formula_some_ge b r m (le_of_lt hb) hr hm
    refine ⟨A, ?_, hge⟩
    unfold periodPayment
    rw [if_neg (by simp), if_pos ⟨by omega, hb⟩]
    exact hA
  | true =>
    refine ⟨init, rfl, ?_⟩
    calc b * (r / 12 / 100) ≤ cap * (r / 12 / 100) :=
          mul_le_mul_of_nonneg_right hbc (by positivity)
      _ ≤ init := hinit

theorem lookupExtra_nonneg (m : ExtraPayments) (d : Date)
    (hm : ∀ e ∈ m, 0 ≤ e.2) : 0 ≤ lookupExtra m d := by
  unfold lookupExtra
  cases hf : m.find? (fun e => decide (e.1 = d)) with
  | none => exact le_refl 0
  | some e => exact hm e (List.mem_of_find?_eq_some hf)

theorem scheduleStep_Remaining_Balance (p : Params) (a mp : ℚ) (k : ℤ) (s : LoopState) :
    (scheduleStep p a k mp s).1.Remaining_Balance =
      max 0 (s.remaining_balance - (scheduleStep p a k mp s).1.Principal) := rfl

theorem scheduleStep_state_balance (p : Params) (a mp : ℚ) (k : ℤ) (s : LoopState) :
    (scheduleStep p a k mp s).2.remaining_balance =
      (scheduleStep p a k mp s).1.Remaining_Balance := rfl

theorem scheduleStep_Principal_nonneg (p : Params) (a mp : ℚ) (k : ℤ) (s : LoopState)
    (hextra : ∀ e ∈ p.extra_payments, 0 ≤ e.2)
    (hmei : 0 ≤ p.monthly_extra_income)
    (hmp : s.remaining_balance * (p.annual_rate / 12 / 100) ≤ mp) :
    0 ≤ (scheduleStep p a k mp s).1.Principal := by
  rw [scheduleStep_Principal]
  have hreg : 0 ≤ (scheduleStep p a k mp s).1.Regular_Principal := by
    show (0:ℚ) ≤ mp - s.remaining_balance * (p.annual_rate / 12 / 100)
    linarith
  have hex : 0 ≤ (scheduleStep p a k mp s).1.Extra_Payment := by
    show (0:ℚ) ≤ lookupExtra p.extra_payments s.current_date +
      (if p.reinvest_excess && decide (s.excess_for_next_month > 0)
        then s.excess_for_next_month else 0)
    have h1 := lookupExtra_nonneg p.extra_payments s.current_date hextra
    split
    · next hh =>
        have : 0 < s.excess_for_next_month := of_decide_eq_true (Bool.and_elim_right hh)
        linarith
    · linarith
  linarith

theorem scheduleAux_balances (p : Params) (init dep : ℚ) (N : ℤ)
    (hr : 0 < p.annual_rate)
    (hextra : ∀ e ∈ p.extra_payments, 0 ≤ e.2)
    (hmei : 0 ≤ p.monthly_extra_income)
    (hinit : p.principal * (p.annual_rate / 12 / 100) ≤ init) :
    ∀ (fuel : ℕ) (k : ℤ) (s : LoopState) (l : List PeriodRecord),
      0 < s.remaining_balance → s.remaining_balance ≤ p.principal →
      k + fuel = N + 1 →
      scheduleAux p init dep N fuel k s = some l →
      balancesOk s.remaining_balance l = true := by
  intro fuel
  induction fuel with
  | zero =>
    intro k s l _ _ _ hl
    simp only [scheduleAux, Option.some.injEq] at hl
    subst hl
    rfl
  | succ n ih =>
    intro k s l hb hbc hk hl
    rw [scheduleAux] at hl
    obtain ⟨A, hA, hge⟩ := periodPayment_some_ge p.reduce_term init p.annual_rate
      s.remaining_balance p.principal (N - k + 1) hr hb hbc (by omega) hinit
    rw [hA] at hl
    simp only at hl
    have hpp := scheduleStep_Principal_nonneg p dep A k s hextra hmei hge
    have hbal0 : 0 ≤ (scheduleStep p dep k A s).1.Remaining_Balance := by
      rw [scheduleStep_Remaining_Balance]; exact le_max_left 0 _
    have hbal1 : (scheduleStep p dep k A s).1.Remaining_Balance ≤ s.remaining_balance := by
      rw [scheduleStep_Remaining_Balance]
      exact max_le (le_of_lt hb) (by linarith)
    split at hl
    · rw [Option.some.injEq] at hl
      subst hl
      simp [balancesOk, hbal0, hbal1]
    · next hpos =>
      rcases Option.map_eq_some'.mp hl with ⟨rest, hrest, rfl⟩
      push_neg at hpos
      have hrec := ih (k + 1) (scheduleStep p dep k A s).2 rest
        (by rw [scheduleStep_state_balance]; exact hpos)
        (by rw [scheduleStep_state_balance]; exact le_trans hbal1 hbc)
        (by omega) hrest
      simp only [balancesOk, Bool.and_eq_true, decide_eq_true_eq]
      rw [← scheduleStep_state_balance]
      exact ⟨⟨by rw [scheduleStep_state_balance]; exact hbal0,
        by rw [scheduleStep_state_balance]; exact hbal1⟩, hrec⟩

/-- C4: for valid inputs (positive principal, positive rate, non-negative
extra payments and fixed extra income) every schedule the generator returns
has non-negative `Remaining_Balance` values that never increase from one
period to the next (starting below the principal). -/
theorem remaining_balance_monotone (p : Params)
    (hP : 0 < p.principal) (hr : 0 < p.annual_rate)
    (hextra : ∀ e ∈ p.extra_payments, 0 ≤ e.2)
    (hmei : 0 ≤ p.monthly_extra_income) :
    (calculate_amortization_schedule p).all (fun l => balancesOk p.principal l) = true := by
  unfold calculate_amortization_schedule
  cases hmp : calculate_monthly_payment p.principal p.annual_rate (p.years * 12) with
  | none => simp only [hmp]; rfl
  | some init =>
    simp only [hmp]
    by_cases hy : 1 ≤ p.years
    · obtain ⟨A, hA, hge⟩ := payment_formula_some_ge p.principal p.annual_rate
        (p.years * 12) (le_of_lt hP) hr (by omega)
      rw [hA, Option.some.injEq] at hmp
      subst hmp
      cases haux : scheduleAux p A (annualDepreciation p) (p.years * 12)
          (p.years * 12).toNat 1 (initialState p) with
      | none => rfl
      | some l =>
        simp only [haux, Option.all_some]
        exact scheduleAux_balances p A (annualDepreciation p) (p.years * 12) hr hextra
          hmei hge (p.years * 12).toNat 1 (initialState p) l hP (le_refl _)
          (by omega) haux
    · have hfuel : (p.years * 12).toNat = 0 := by omega
      rw [hfuel]
      simp [scheduleAux, balancesOk]

theorem periodPayment_of_reduce (rt : Bool) (hrt : rt = true) (init r b : ℚ) (m : ℤ) :
    periodPayment rt init r b m = some init := by
  rw [hrt]; rfl

theorem scheduleStep_plain_balance (p : Params) (a mp : ℚ) (k : ℤ) (s : LoopState)
    (hex : p.extra_payments = []) (hri : p.reinvest_excess = false)
    (hmei : p.monthly_extra_income = 0) :
    (scheduleStep p a k mp s).1.Remaining_Balance =
      max 0 (s.remaining_balance * (1 + p.annual_rate / 12 / 100) - mp) := by
  rw [scheduleStep_Remaining_Balance, scheduleStep_Principal]
  have hextra0 : (scheduleStep p a k mp s).1.Extra_Payment = 0 := by
    show lookupExtra p.extra_payments s.current_date +
      (if p.reinvest_excess && decide (s.excess_for_next_month > 0)
        then s.excess_for_next_month else 0) = 0
    rw [hex, hri]
    simp [lookupExtra]
  rw [hextra0, hmei]
  show max 0 (s.remaining_balance -
    (mp - s.remaining_balance * (p.annual_rate / 12 / 100) + 0 + 0)) = _
  ring_nf

theorem scheduleAux_annuity (p : Params) (dep A : ℚ) (N : ℤ)
    (hrt : p.reduce_term = true) (hex : p.extra_payments = [])
    (hri : p.reinvest_excess = false) (hmei : p.monthly_extra_income = 0)
    (n' : ℕ) (b : ℕ → ℚ)
    (hb_rec : ∀ t, b t * (1 + p.annual_rate / 12 / 100) - A = b (t + 1))
    (hb_pos : ∀ t, t < n' → 0 < b t)
    (hb_top : b n' = 0) :
    ∀ (j t : ℕ) (s : LoopState), (t + 1) + j = n' →
      s.remaining_balance = b t →
      ∃ l, scheduleAux p A dep N (j + 1) ((t : ℤ) + 1) s = some l ∧
        l.map (fun pr => pr.Payment) = List.replicate (j + 1) A ∧
        l.map (fun pr => pr.Remaining_Balance) =
          (List.range (j + 1)).map (fun i => b (t + 1 + i)) := by
  have hb_nonneg : ∀ u, u ≤ n' → 0 ≤ b u := by
    intro u hu
    rcases eq_or_lt_of_le hu with rfl | hlt
    · exact le_of_eq hb_top.symm
    · exact le_of_lt (hb_pos u hlt)
  intro j
  induction j with
  | zero =>
    intro t s ht hs
    have htn : t + 1 = n' := by omega
    have hbal : (scheduleStep p dep ((t : ℤ) + 1) A s).1.Remaining_Balance = 0 := by
      rw [scheduleStep_plain_balance p dep A ((t : ℤ) + 1) s hex hri hmei, hs, hb_rec t,
        htn, hb_top]
      simp
    refine ⟨[(scheduleStep p dep ((t : ℤ) + 1) A s).1], ?_, rfl, ?_⟩
    · rw [scheduleAux, periodPayment_of_reduce p.reduce_term hrt]
      dsimp only
      rw [if_pos (le_of_eq hbal)]
    · simp only [List.map_cons, List.map_nil]
      rw [hbal]
      simp [List.range_succ, htn, hb_top]
  | succ j' ih =>
    intro t s ht hs
    have ht1 : t + 1 < n' := by omega
    have hbal : (scheduleStep p dep ((t : ℤ) + 1) A s).1.Remaining_Balance = b (t + 1) := by
      rw [scheduleStep_plain_balance p dep A ((t : ℤ) + 1) s hex hri hmei, hs, hb_rec t]
      exact max_eq_right (hb_nonneg (t + 1) (le_of_lt ht1))
    obtain ⟨l', haux', hpay', hbalmap'⟩ := ih (t + 1)
      (scheduleStep p dep ((t : ℤ) + 1) A s).2 (by omega)
      (by rw [scheduleStep_state_balance]; exact hbal)
    have hcast : ((t + 1 : ℕ) : ℤ) + 1 = (t : ℤ) + 1 + 1 := by push_cast; ring
    rw [hcast] at haux'
    refine ⟨(scheduleStep p dep ((t : ℤ) + 1) A s).1 :: l', ?_, ?_, ?_⟩
    · rw [scheduleAux, periodPayment_of_reduce p.reduce_term hrt]
      dsimp only
      rw [if_neg (by rw [hbal]; exact not_le.mpr (hb_pos (t + 1) ht1))]
      rw [haux']
      rfl
    · simp only [List.map_cons, hpay', List.replicate_succ, scheduleStep_Payment]
    · conv_rhs => rw [List.range_succ_eq_map]
      rw [List.map_cons, List.map_cons, List.map_map]
      have hhead : (scheduleStep p dep ((t : ℤ) + 1) A s).1.Remaining_Balance =
          b (t + 1 + 0) := by rw [hbal]
      have htail : List.map (fun pr => pr.Remaining_Balance) l' =
          List.map ((fun i => b (t + 1 + i)) ∘ Nat.succ) (List.range (j' + 1)) := by
        rw [hbalmap']
        apply List.map_congr_left
        intro i _
        simp only [Function.comp_apply]
        congr 1
        omega
      rw [hhead, htail]

/-- C5: for every valid loan with `reduce_term = true`, no extra payments,
no reinvestment and no fixed extra income, the schedule has exactly
`term_years * 12` records, every record's payment equals the annuity payment
computed once by the Payment Formula, the balance is strictly positive at
every record before the last (so no record is emitted after payoff), and the
final record's balance is exactly 0. -/
theorem reduce_term_full_schedule (p : Params)
    (hP : 0 < p.principal) (hr : 0 < p.annual_rate) (hy : 1 ≤ p.years)
    (hrt : p.reduce_term = true) (hex : p.extra_payments = [])
    (hri : p.reinvest_excess = false) (hmei : p.monthly_extra_income = 0) :
    ∃ A, calculate_monthly_payment p.principal p.annual_rate (p.years * 12) = some A ∧
      ∃ l, calculate_amortization_schedule p = some l ∧
        (l.length : ℤ) = p.years * 12 ∧
        (∀ pr ∈ l, pr.Payment = A) ∧
        (∀ (i : ℕ) (h : i < l.length),
          (i + 1 < l.length → 0 < (l.get ⟨i, h⟩).Remaining_Balance) ∧
          (i + 1 = l.length → (l.get ⟨i, h⟩).Remaining_Balance = 0)) := by
  have hrho : (0:ℚ) < p.annual_rate / 12 / 100 := by positivity
  have hq : (1:ℚ) < 1 + p.annual_rate / 12 / 100 := by linarith
  set n' := (p.years * 12).toNat with hn'def
  have hn'' : ((n' : ℤ)) = p.years * 12 := Int.toNat_of_nonneg (by omega)
  have hn1 : 1 ≤ n' := by omega
  have hQ : (1:ℚ) < (1 + p.annual_rate / 12 / 100) ^ n' := one_lt_pow₀ hq (by omega)
  have hden : (0:ℚ) < (1 + p.annual_rate / 12 / 100) ^ n' - 1 := by linarith
  have hden0 : (1 + p.annual_rate / 12 / 100) ^ n' - 1 ≠ 0 := ne_of_gt hden
  have hQz : (1 + p.annual_rate / 12 / 100) ^ ((p.years * 12 : ℤ)) =
      (1 + p.annual_rate / 12 / 100) ^ n' := by
    rw [← hn'', zpow_natCast]
  have hmp : calculate_monthly_payment p.principal p.annual_rate (p.years * 12) =
      some (p.principal * (p.annual_rate / 12 / 100 *
        (1 + p.annual_rate / 12 / 100) ^ n') /
        ((1 + p.annual_rate / 12 / 100) ^ n' - 1)) := by
    unfold calculate_monthly_payment
    dsimp only
    rw [hQz, if_neg hden0]
  have hb_rec : ∀ t : ℕ, (p.principal * ((1 + p.annual_rate / 12 / 100) ^ n' -
      (1 + p.annual_rate / 12 / 100) ^ t) / ((1 + p.annual_rate / 12 / 100) ^ n' - 1)) *
        (1 + p.annual_rate / 12 / 100) -
      p.principal * (p.annual_rate / 12 / 100 * (1 + p.annual_rate / 12 / 100) ^ n') /
        ((1 + p.annual_rate / 12 / 100) ^ n' - 1) =
      p.principal * ((1 + p.annual_rate / 12 / 100) ^ n' -
        (1 + p.annual_rate / 12 / 100) ^ (t + 1)) /
        ((1 + p.annual_rate / 12 / 100) ^ n' - 1) := by
    intro t
    rw [pow_succ, div_mul_eq_mul_div, div_sub_div_same]
    congr 1
    ring
  have hb_pos : ∀ t : ℕ, t < n' →
      0 < p.principal * ((1 + p.annual_rate / 12 / 100) ^ n' -
        (1 + p.annual_rate / 12 / 100) ^ t) / ((1 + p.annual_rate / 12 / 100) ^ n' - 1) := by
    intro t ht
    have hlt : (1 + p.annual_rate / 12 / 100) ^ t <
        (1 + p.annual_rate / 12 / 100) ^ n' := pow_lt_pow_right₀ hq ht
    have hnum : 0 < p.principal * ((1 + p.annual_rate / 12 / 100) ^ n' -
        (1 + p.annual_rate / 12 / 100) ^ t) := by nlinarith
    exact div_pos hnum hden
  have hb_top : p.principal * ((1 + p.annual_rate / 12 / 100) ^ n' -
      (1 + p.annual_rate / 12 / 100) ^ n') / ((1 + p.annual_rate / 12 / 100) ^ n' - 1) =
      0 := by
    simp
  obtain ⟨l, haux, hpay, hbalmap⟩ := scheduleAux_annuity p (annualDepreciation p)
    (p.principal * (p.annual_rate / 12 / 100 * (1 + p.annual_rate / 12 / 100) ^ n') /
      ((1 + p.annual_rate / 12 / 100) ^ n' - 1)) (p.years * 12) hrt hex hri hmei n'
    (fun t => p.principal * ((1 + p.annual_rate / 12 / 100) ^ n' -
      (1 + p.annual_rate / 12 / 100) ^ t) / ((1 + p.annual_rate / 12 / 100) ^ n' - 1))
    hb_rec hb_pos hb_top (n' - 1) 0 (initialState p) (by omega)
    (by
      show p.principal = p.principal *
        ((1 + p.annual_rate / 12 / 100) ^ n' - (1 + p.annual_rate / 12 / 100) ^ 0) /
        ((1 + p.annual_rate / 12 / 100) ^ n' - 1)
      rw [pow_zero, mul_div_assoc, div_self hden0, mul_one])
  have hfuel : n' - 1 + 1 = n' := by omega
  rw [hfuel] at haux
  have hone : ((0 : ℕ) : ℤ) + 1 = 1 := by norm_num
  rw [hone] at haux
  have hlen : l.length = n' := by
    have := congrArg List.length hpay
    simp at this
    omega
  refine ⟨_, hmp, l, ?_, ?_, ?_, ?_⟩
  · unfold calculate_amortization_schedule
    dsimp only
    rw [hmp]
    exact haux
  · rw [hlen]; exact hn''
  · intro pr hpr
    have hmem : pr.Payment ∈ l.map (fun pr => pr.Payment) :=
      List.mem_map_of_mem (fun pr => pr.Payment) hpr
    rw [hpay] at hmem
    exact List.eq_of_mem_replicate hmem
  · intro i h
    have hgi := List.get_of_eq hbalmap ⟨i, by simpa using h⟩
    rw [List.get_map] at hgi
    have hr2 : (((List.range n').map (fun i => p.principal *
        ((1 + p.annual_rate / 12 / 100) ^ n' - (1 + p.annual_rate / 12 / 100) ^ (0 + 1 + i)) /
        ((1 + p.annual_rate / 12 / 100) ^ n' - 1))).get
          ⟨i, by simpa [hlen] using h⟩) = p.principal *
        ((1 + p.annual_rate / 12 / 100) ^ n' - (1 + p.annual_rate / 12 / 100) ^ (0 + 1 + i)) /
        ((1 + p.annual_rate / 12 / 100) ^ n' - 1) := by
      rw [List.get_map, List.get_range]
    rw [List.get_map, List.get_range] at hgi
    simp only at hgi
    constructor
    · intro hi1
      rw [hgi]
      exact hb_pos (0 + 1 + i) (by omega)
    · intro hi1
      rw [hgi]
      have hni : 0 + 1 + i = n' := by omega
      rw [hni]
      simp

/-- C7: the Tax Accrual Module's contract.  If `rental_percentage ≤ 50`,
`calculate_rental_tax` returns all-zero outputs (hard cutoff) and every
period's `Monthly_Tax` in any schedule run at such a percentage is 0.  If
`rental_percentage > 50`, total deductions equal
`interest * pct/100 + property_tax * pct/100 + other_expenses + depreciation`,
taxable income is `max 0 (rental_income − deductions)`, and the tax is
`taxable_income * 0.22`. -/
theorem rental_tax_policy (a pct ip pt oe dep : ℚ) (p : Params) :
    (pct ≤ 50 →
      calculate_rental_tax a pct ip pt oe dep =
        { taxable_income := 0, income_tax := 0, effective_tax_rate := 0, deductions := 0 }) ∧
    (p.rental_percentage ≤ 50 →
      ∀ pr ∈ (calculate_amortization_schedule p).getD [], pr.Monthly_Tax = 0) ∧
    (50 < pct →
      (calculate_rental_tax a pct ip pt oe dep).deductions =
          ip * (pct / 100) + pt * (pct / 100) + oe + dep ∧
      (calculate_rental_tax a pct ip pt oe dep).taxable_income =
          max 0 (a - (ip * (pct / 100) + pt * (pct / 100) + oe + dep)) ∧
      (calculate_rental_tax a pct ip pt oe dep).income_tax =
          max 0 (a - (ip * (pct / 100) + pt * (pct / 100) + oe + dep)) * (22 / 100)) := by
  refine ⟨fun h => ?_, fun h pr hpr => ?_, fun h => ?_⟩
  · simp [calculate_rental_tax, not_lt.mpr h]
  · cases hs : calculate_amortization_schedule p with
    | none => rw [hs] at hpr; simp at hpr
    | some l =>
      rw [hs] at hpr
      simp only [Option.getD_some] at hpr
      unfold calculate_amortization_schedule at hs
      cases hmp : calculate_monthly_payment p.principal p.annual_rate (p.years * 12) with
      | none => simp only [hmp] at hs; exact Option.noConfusion hs
      | some init =>
        simp only [hmp] at hs
        exact scheduleAux_monthly_tax_zero p (not_lt.mpr h) init (annualDepreciation p)
          (p.years * 12) _ 1 (initialState p) l hs pr hpr
  · simp [calculate_rental_tax, h]

unseal Rat.add Rat.mul Rat.inv Rat.sub Rat.ofScientific in
/-- C7 witness: both regimes of `rental_tax_policy` instantiated at concrete
inputs (40% and 60% rented out; the schedule clause at `smallParams`). -/
theorem rental_tax_policy_witness :
    ((40 : ℚ) ≤ 50 ∧
      calculate_rental_tax 100 40 10 20 30 40 =
        { taxable_income := 0, income_tax := 0, effective_tax_rate := 0, deductions := 0 }) ∧
    (smallParams.rental_percentage ≤ 50 ∧
      ∀ pr ∈ (calculate_amortization_schedule smallParams).getD [], pr.Monthly_Tax = 0) ∧
    ((50 : ℚ) < 60 ∧
      (calculate_rental_tax 100 60 10 20 30 40).deductions =
          10 * (60 / 100) + 20 * (60 / 100) + 30 + 40) :=
  ⟨⟨by norm_num, (rental_tax_policy 100 40 10 20 30 40 smallParams).1 (by norm_num)⟩,
   ⟨by decide, (rental_tax_policy 100 40 10 20 30 40 smallParams).2.1 (by decide)⟩,
   ⟨by norm_num, ((rental_tax_policy 100 60 10 20 30 40 smallParams).2.2 (by norm_num)).1⟩⟩

unseal Rat.add Rat.mul Rat.inv Rat.sub Rat.ofScientific in
/-- C2 counterexample: `calculate_monthly_payment` itself has no degenerate
case.  At `n = 0` the denominator `(1+r/1200)^0 - 1` is zero and the Python
function raises `ZeroDivisionError` (modelled as `none`) instead of returning
0; at `n = -12` it returns a nonzero (negative) value. -/
theorem payment_formula_degenerate_failure :
    calculate_monthly_payment 1000000 5 0 = none ∧
    calculate_monthly_payment 1000000 5 (-12) ≠ some 0 := by decide

/-- C2 amended: the degenerate case `n ≤ 0` is handled not by the Payment
Formula but by its caller.  The schedule generator's per-period payment
selection (source lines 118-127) yields payment 0 whenever the remaining
number of months is ≤ 0, without invoking `calculate_monthly_payment`. -/
theorem degenerate_term_payment_zero (init r b : ℚ) (m : ℤ) (hm : m ≤ 0) :
    periodPayment false init r b m = some 0 := by
  unfold periodPayment
  simp only [Bool.false_eq_true, if_false]
  exact if_neg (fun h => absurd h.1 (not_lt.mpr hm))

/-- C2 amended witness: `periodPayment` at remaining months −3 returns
`some 0`. -/
theorem degenerate_term_payment_zero_witness :
    (-3 : ℤ) ≤ 0 ∧ periodPayment false 100 5 1000 (-3) = some 0 :=
  ⟨by decide, degenerate_term_payment_zero 100 5 1000 (-3) (by decide)⟩

unseal Rat.add Rat.mul Rat.inv Rat.sub Rat.ofScientific in
/-- C3 counterexample: the schedule generator performs no validation.  Run on
a negative principal (−1000, an invalid input) it neither fails nor rejects:
it emits a period record computed from the nonsensical input. -/
theorem invalid_principal_schedule_emitted :
    calculate_amortization_schedule c3aParams ≠ none ∧
    (calculate_amortization_schedule c3aParams).getD [] ≠ [] := by decide

unseal Rat.add Rat.mul Rat.inv Rat.sub Rat.ofScientific in
/-- C3 amended: the engine never rejects invalid parameters with a
validation failure.  A negative principal still emits a period record (the
schedule has length 1 because the floored balance immediately hits 0), and a
negative term silently yields an empty schedule; range enforcement exists
only in the UI layer, outside the engine. -/
theorem no_input_validation :
    ((calculate_amortization_schedule c3aParams).getD []).length = 1 ∧
    calculate_amortization_schedule c3bParams = some [] := by decide

set_option maxRecDepth 4000 in
unseal Rat.add Rat.mul Rat.inv Rat.sub Rat.ofScientific in
/-- C1 counterexample: for a schedule run with `rental_percentage > 50`
(`c1Params`: 100% rented, one calendar year, so the year's deductions are
exactly the year's interest), the sum of the year's `Monthly_Tax` fields
falls short of `0.22 * max 0 (annual rental income − annual deductions)` by
more than 100 currency units — far beyond rounding: the eleven non-boundary months carry independently
annualized estimates while only the December record carries a share of the
reconciled annual tax. -/
theorem annual_tax_sum_mismatch :
    c1Schedule.length = 12 ∧
    c1Schedule.all (fun pr => pr.Payment_Date.year == 2025) = true ∧
    22 / 100 * max 0 (12 * 2000 - (c1Schedule.map (fun pr => pr.Interest)).sum) -
      (c1Schedule.map (fun pr => pr.Monthly_Tax)).sum > 100 := by
  decide

/-- C1 amended: what does hold at a year boundary: in the December period of
a tax-active run, the emitted `Monthly_Tax` times `months_in_year` equals
`0.22 * max 0 (accumulated yearly rental income − yearly deductions)` exactly
(the reconciled annual tax of `calculate_rental_tax`); the year's other
records carry annualized single-month estimates, so the within-year sum of
`Monthly_Tax` generally differs from the annual tax. -/
theorem year_boundary_tax_reconciliation (p : Params) (a mp m : ℚ) (k : ℤ) (s : LoopState)
    (h50 : 50 < p.rental_percentage) (hmo : s.current_date.month = 12)
    (hm : m = if s.current_date.year > p.start_date.year then (12 : ℚ)
          else 13 - (p.start_date.month : ℚ))
    (hm0 : m ≠ 0) :
    (scheduleStep p a k mp s).1.Monthly_Tax * m =
      22 / 100 * max 0 ((s.yearly_rental_income + p.rental_income) -
        ((s.yearly_interest_paid + s.remaining_balance * (p.annual_rate / 12 / 100)) *
            (p.rental_percentage / 100)
          + (p.property_tax * m / 12) * (p.rental_percentage / 100)
          + p.other_expenses * m / 12
          + (a / 12) * m)) := by
  subst hm
  by_cases hy : p.start_date.year < s.current_date.year
  · simp only [scheduleStep, calculate_rental_tax, hmo, gt_iff_lt, hy, if_pos h50,
      if_true, if_false]
    norm_num
    ring
  · simp only [scheduleStep, calculate_rental_tax, hmo, gt_iff_lt, hy, if_pos h50,
      if_true, if_false] at hm0 ⊢
    norm_num at hm0 ⊢
    rw [div_mul_cancel₀ _ hm0]
    ring_nf

unseal Rat.add Rat.mul Rat.inv Rat.sub Rat.ofScientific in
/-- C1 amended witness: the boundary reconciliation instantiated at a
December loop state of a run that started in March (months_in_year = 10). -/
theorem year_boundary_tax_reconciliation_witness :
    (50 : ℚ) < marchStartParams.rental_percentage ∧
    decemberState.current_date.month = 12 ∧
    ((10 : ℚ) = if decemberState.current_date.year > marchStartParams.start_date.year
      then (12 : ℚ) else 13 - (marchStartParams.start_date.month : ℚ)) ∧
    (10 : ℚ) ≠ 0 ∧
    (scheduleStep marchStartParams 0 10 500 decemberState).1.Monthly_Tax * 10 =
      22 / 100 * max 0 ((decemberState.yearly_rental_income +
          marchStartParams.rental_income) -
        ((decemberState.yearly_interest_paid + decemberState.remaining_balance *
            (marchStartParams.annual_rate / 12 / 100)) *
            (marchStartParams.rental_percentage / 100)
          + (marchStartParams.property_tax * 10 / 12) *
            (marchStartParams.rental_percentage / 100)
          + marchStartParams.other_expenses * 10 / 12
          + ((0 : ℚ) / 12) * 10)) :=
  ⟨by decide, by decide, by decide, by decide,
    year_boundary_tax_reconciliation marchStartParams 0 500 10 10 decemberState
      (by decide) (by decide) (by decide) (by decide)⟩

theorem scheduleAux_fee (p : Params) (f1 f2 init dep : ℚ) (N : ℤ) :
    ∀ (fuel : ℕ) (k : ℤ) (s : LoopState),
      (scheduleAux { p with monthly_fee := f1 } init dep N fuel k s).map
          (List.map stripFee) =
        (scheduleAux { p with monthly_fee := f2 } init dep N fuel k s).map
          (List.map stripFee) := by
  intro fuel
  induction fuel with
  | zero => intro k s; rfl
  | succ n ih =>
    intro k s
    rw [scheduleAux]
    rw [scheduleAux]
    dsimp only
    cases hpp : periodPayment p.reduce_term init p.annual_rate s.remaining_balance
        (N - k + 1) with
    | none => rfl
    | some mp =>
      have hbal : (scheduleStep { p with monthly_fee := f1 } dep k mp s).1.Remaining_Balance =
          (scheduleStep { p with monthly_fee := f2 } dep k mp s).1.Remaining_Balance := rfl
      have hst : (scheduleStep { p with monthly_fee := f1 } dep k mp s).2 =
          (scheduleStep { p with monthly_fee := f2 } dep k mp s).2 := rfl
      have hstrip : stripFee (scheduleStep { p with monthly_fee := f1 } dep k mp s).1 =
          stripFee (scheduleStep { p with monthly_fee := f2 } dep k mp s).1 := rfl
      dsimp only
      rw [hbal, hst]
      split
      · simp [hstrip]
      · rw [Option.map_map, Option.map_map]
        have hf1 : (List.map stripFee ∘ fun rest =>
            (scheduleStep { p with monthly_fee := f1 } dep k mp s).1 :: rest) =
            (List.cons (stripFee (scheduleStep { p with monthly_fee := f1 } dep k mp s).1)) ∘
              List.map stripFee := by
          funext rest; simp
        have hf2 : (List.map stripFee ∘ fun rest =>
            (scheduleStep { p with monthly_fee := f2 } dep k mp s).1 :: rest) =
            (List.cons (stripFee (scheduleStep { p with monthly_fee := f2 } dep k mp s).1)) ∘
              List.map stripFee := by
          funext rest; simp
        rw [hf1, hf2, hstrip, ← Option.map_map, ← Option.map_map, ih]

/-- C9: the monthly fee is frame-local.  Two runs identical except for
`monthly_fee` produce schedules of the same length whose records agree on
every field other than `Monthly_Fee`, `Monthly_Cost` and
`Monthly_Cost_After_Tax` — in particular on payment, interest, principal,
extra payment, reinvested surplus, tax and remaining balance. -/
theorem monthly_fee_frame_effect (p : Params) (f1 f2 : ℚ) :
    (calculate_amortization_schedule { p with monthly_fee := f1 }).map
        (List.map stripFee) =
      (calculate_amortization_schedule { p with monthly_fee := f2 }).map
        (List.map stripFee) := by
  unfold calculate_amortization_schedule
  dsimp only
  cases hmp : calculate_monthly_payment p.principal p.annual_rate (p.years * 12) with
  | none => rfl
  | some init => exact scheduleAux_fee p f1 f2 init (annualDepreciation p) (p.years * 12) _ 1 _

set_option maxRecDepth 10000 in
unseal Rat.add Rat.mul Rat.inv Rat.sub Rat.ofScientific in
/-- C8: the spec's example.  For the 1,000,000 loan at 5% over 10 years with
`reduce_term = false` and a single 100,000 extra payment on period 1's date,
the schedule still has 120 records, period 2's recomputed payment is strictly
below period 1's, and period 2's payment is exactly the Payment Formula
applied to period 1's remaining balance over the remaining 119 months. -/
theorem payment_reduction_example :
    c8Schedule.length = 120 ∧
    (c8Schedule.getD 1 emptyRecord).Payment < (c8Schedule.getD 0 emptyRecord).Payment ∧
    calculate_monthly_payment (c8Schedule.getD 0 emptyRecord).Remaining_Balance 5 119 =
      some ((c8Schedule.getD 1 emptyRecord).Payment) := by decide


unseal Rat.add Rat.mul Rat.inv Rat.sub Rat.ofScientific in
/-- C4 witness: `remaining_balance_monotone` at `smallParams`. -/
theorem remaining_balance_monotone_witness :
    0 < smallParams.principal ∧ 0 < smallParams.annual_rate ∧
    (∀ e ∈ smallParams.extra_payments, 0 ≤ e.2) ∧
    0 ≤ smallParams.monthly_extra_income ∧
    (calculate_amortization_schedule smallParams).all
      (fun l => balancesOk smallParams.principal l) = true :=
  ⟨by decide, by decide, by decide, by decide,
    remaining_balance_monotone smallParams (by decide) (by decide) (by decide) (by decide)⟩

unseal Rat.add Rat.mul Rat.inv Rat.sub Rat.ofScientific in
/-- C5 witness: `reduce_term_full_schedule` at `smallParams`. -/
theorem reduce_term_full_schedule_witness :
    0 < smallParams.principal ∧ 0 < smallParams.annual_rate ∧ 1 ≤ smallParams.years ∧
    smallParams.reduce_term = true ∧ smallParams.extra_payments = [] ∧
    smallParams.reinvest_excess = false ∧ smallParams.monthly_extra_income = 0 ∧
    (∃ A, calculate_monthly_payment smallParams.principal smallParams.annual_rate
        (smallParams.years * 12) = some A ∧
      ∃ l, calculate_amortization_schedule smallParams = some l ∧
        (l.length : ℤ) = smallParams.years * 12 ∧
        (∀ pr ∈ l, pr.Payment = A) ∧
        (∀ (i : ℕ) (h : i < l.length),
          (i + 1 < l.length → 0 < (l.get ⟨i, h⟩).Remaining_Balance) ∧
          (i + 1 = l.length → (l.get ⟨i, h⟩).Remaining_Balance = 0))) :=
  ⟨by decide, by decide, by decide, by decide, by decide, by decide, by decide,
    reduce_term_full_schedule smallParams (by decide) (by decide) (by decide)
      (by decide) (by decide) (by decide) (by decide)⟩
